import Mathlib

/-
Verification of the foodgram backend (vhg860/foodgram-project-react).

This file gives a shallow embedding, in Lean 4, of the parts of the Django
backend that the specification talks about: the recipe validator, recipe
persistence (create/update), the favorite / shopping-cart membership toggles,
the subscription manager, the shopping-list aggregation query, the recipe
detail ingredient listing, and the reserved-username validator.

Conventions of the embedding:
- database rows become entries of Lean lists held in explicit state records;
- primary keys become `Nat`;
- fallible operations return `Except` (a raised serializer `ValidationError`
  becomes `.error msg`); handlers that return an HTTP error status are
  modelled with an explicit error constructor carrying the status;
- the Django ORM queries are translated call by call, with comments citing
  the source location and, where the translation fixes an ORM semantics
  (join reuse, GROUP BY ordering), the documented Django behaviour used.
-/

namespace Foodgram

/-! ## Constants

`backend/api/constans.py` is imported throughout the backend
(`MIN_TAG_COUNT`, `MIN_INGREDIENT_COUNT`, `MIN_COOKING_TIME`, ...) but the
file itself is not part of the sources given here, so the values are taken
from the specification. -/

/-- Modelled from the spec: `api/constans.py` (the module defining
`MIN_TAG_COUNT`) is not among the sources; spec §4.1 requires a non-empty
tag set, i.e. at least 1 tag. -/
def MIN_TAG_COUNT : Nat := 1

/-- Modelled from the spec: `api/constans.py` is not among the sources;
spec §4.1 requires every ingredient amount to be at least 1 (the
"configurable minimum"). -/
def MIN_INGREDIENT_COUNT : Int := 1

/-- Modelled from the spec: `api/constans.py` is not among the sources;
spec §4.1 and the `Recipe.cooking_time` model validators give a minimum
cooking time of 1 minute. -/
def MIN_COOKING_TIME : Int := 1

/-! ## Recipe validation (backend/api/serializers.py, RecipeCreateUpdateSerializer.validate)

The candidate payload carries the tag primary keys, the (ingredient id,
amount) pairs, the cooking time and the optional image.  Amounts and the
cooking time are `Int` because the serializer-level `validate` method
receives plain integers and itself checks the lower bounds.  The image is
`Option String`: `data.get("image")` yields `None` when absent, and the
`if not image` guard in the source fires exactly on that falsy value. -/

structure IngredientRef where
  id : Nat
  amount : Int
deriving DecidableEq, Repr

structure RecipePayload where
  tags : List Nat
  ingredients : List IngredientRef
  cooking_time : Int
  image : Option String
deriving DecidableEq, Repr

/-- Error message of serializers.py line 271 (tags empty). -/
def tagRequiredMsg : String := "Рецепт должен содержать как минимум 1 тег"

/-- Error message of serializers.py line 274 (duplicate tag). -/
def tagDuplicateMsg : String := "Теги не должны повторяться"

/-- Error message of serializers.py lines 277-280 (ingredients empty). -/
def ingredientRequiredMsg : String :=
  "Рецепт должен содержать как минимум 1 ингредиент"

/-- Error message of serializers.py lines 286-289 (amount below minimum). -/
def amountTooSmallMsg : String :=
  "Количество ингредиента не может быть меньше 1"

/-- Error message of serializers.py line 291 (unknown ingredient id). -/
def ingredientMissingMsg : String := "Ингредиент не существует"

/-- Error message of serializers.py lines 293-295 (repeated ingredient id). -/
def ingredientDuplicateMsg : String := "Ингредиент уже добавлен в рецепт"

/-- Error message of serializers.py lines 299-301 (cooking time too small). -/
def cookingTimeMsg : String := "Время готовки не может быть менее 1 мин"

/-- Error message of serializers.py lines 304-306 (no image). -/
def imageMissingMsg : String := "Добавьте изображение"

/-- The `for ingredient in ingredients` loop of serializers.py lines
282-296: per pair, in source order, check the amount lower bound, then
that the id denotes an existing `Ingredient` row, then that the id was not
seen before (`ingredients_list`, here the accumulator `seen`). `existing`
is the set of ingredient ids present in the database, standing for
`Ingredient.objects.filter(id=...).exists()`. -/
def validateIngredientsLoop (existing : List Nat) :
    List IngredientRef → List Nat → Except String Unit
  | [], _ => .ok ()
  | ing :: rest, seen =>
    if ing.amount < MIN_INGREDIENT_COUNT then .error amountTooSmallMsg
    else if !(existing.contains ing.id) then .error ingredientMissingMsg
    else if seen.contains ing.id then .error ingredientDuplicateMsg
    else validateIngredientsLoop existing rest (ing.id :: seen)

/-- `RecipeCreateUpdateSerializer.validate` (serializers.py lines 262-308),
translated check by check in source order.  `len(tags) != len(set(tags))`
is rendered with `List.dedup`, whose length equals the cardinality of the
set of elements. -/
def validate (existing : List Nat) (data : RecipePayload) :
    Except String RecipePayload :=
  if data.tags.isEmpty then .error tagRequiredMsg
  else if data.tags.length ≠ data.tags.dedup.length then .error tagDuplicateMsg
  else if data.ingredients.isEmpty then .error ingredientRequiredMsg
  else
    match validateIngredientsLoop existing data.ingredients [] with
    | .error m => .error m
    | .ok () =>
      if data.cooking_time < MIN_COOKING_TIME then .error cookingTimeMsg
      else if data.image.isNone then .error imageMissingMsg
      else .ok data

/-! ### Spec-side rule list

The specification describes the validator as a list of rules checked in
order, the first failed rule producing the (single) error message.  The
following definitions state that rule list declaratively, to be compared
with `validate`. -/

/-- Spec-side per-ingredient rules, in the order the spec lists them
(amount bound, existence, no repetition), one triple per pair. Each entry
is `(rule holds, message on failure)`. -/
def specIngredientChecks (existing : List Nat) :
    List IngredientRef → List Nat → List (Bool × String)
  | [], _ => []
  | ing :: rest, seen =>
    (decide (MIN_INGREDIENT_COUNT ≤ ing.amount), amountTooSmallMsg) ::
    (existing.contains ing.id, ingredientMissingMsg) ::
    (!(seen.contains ing.id), ingredientDuplicateMsg) ::
    specIngredientChecks existing rest (ing.id :: seen)

/-- Spec-side rule list for the whole payload: each entry is
`(rule holds, message on failure)`, in the order of spec §4.1. -/
def specChecks (existing : List Nat) (data : RecipePayload) :
    List (Bool × String) :=
  (!data.tags.isEmpty, tagRequiredMsg) ::
  (decide (data.tags.length = data.tags.dedup.length), tagDuplicateMsg) ::
  (!data.ingredients.isEmpty, ingredientRequiredMsg) ::
  (specIngredientChecks existing data.ingredients [] ++
    [(decide (MIN_COOKING_TIME ≤ data.cooking_time), cookingTimeMsg),
     (!data.image.isNone, imageMissingMsg)])

/-- Message of the first failed rule of the spec-side list, `none` when
every rule holds. -/
def specFirstFailure (existing : List Nat) (data : RecipePayload) :
    Option String :=
  ((specChecks existing data).find? (fun c => !c.1)).map (·.2)

/-! ## Reserved-username validation (backend/users/validators.py) -/

/-- Lowercasing of a string, character by character, Python's
`str.lower` on the characters a username may contain (the username
pattern `^[\w.@+-]+$`; on ASCII the two functions agree). -/
def strLower (s : String) : String := ⟨s.data.map Char.toLower⟩

/-- Error message of users/validators.py lines 13-14. -/
def reservedUsernameMsg : String := "Имя пользователя не может быть me"

/-- `validate_username_not_me` (users/validators.py lines 11-15): reject
exactly when `value.lower() == 'me'`.  Usernames satisfy the
`^[\w.@+-]+$` pattern, so on the characters that can occur here Python's
`str.lower` and Lean's `String.toLower` agree. -/
def validate_username_not_me (value : String) : Except String Unit :=
  if strLower value = "me" then .error reservedUsernameMsg else .ok ()

/-! ## Database state for the shopping cart and recipe detail queries

Rows of the `Ingredient`, `IngredientInRecipe` and `ShoppingCart` tables of
backend/recipes/models.py.  The `ShoppingCart` table is a list of
`(user id, recipe id)` join rows. -/

structure Ingredient where
  id : Nat
  name : String
  measurement_unit : String
deriving DecidableEq, Repr

structure IngredientInRecipe where
  recipe : Nat
  ingredient : Nat
  amount : Nat
deriving DecidableEq, Repr

structure ShopState where
  ingredients : List Ingredient
  ingredientRows : List IngredientInRecipe
  shoppingCart : List (Nat × Nat)
deriving DecidableEq, Repr

/-- One aggregated line of the shopping list: distinct
(ingredient name, measurement unit) with a summed amount. -/
structure CartLine where
  name : String
  measurement_unit : String
  amount : Nat
deriving DecidableEq, Repr

/-- Grouping key of a line: the (name, measurement unit) pair, the
`values("ingredient__name", "ingredient__measurement_unit")` clause of
views.py lines 213-216. -/
def keyOf (c : CartLine) : String × String := (c.name, c.measurement_unit)

/-- `IngredientInRecipe.objects.filter(recipe__shopping_cart__user=user)`
(views.py lines 213-214): the ingredient rows whose recipe sits in the
given user's shopping cart. -/
def cartRows (s : ShopState) (user : Nat) : List IngredientInRecipe :=
  s.ingredientRows.filter (fun r => s.shoppingCart.contains (user, r.recipe))

/-- Lookup of the `Ingredient` row behind a foreign key (the SQL join to
the ingredient table that `ingredient__name` performs). -/
def findIngredient (s : ShopState) (iid : Nat) : Option Ingredient :=
  s.ingredients.find? (fun i => i.id == iid)

/-- The joined rows (name, measurement unit, amount) feeding the GROUP BY:
inner join, so a row whose ingredient id has no `Ingredient` row (excluded
anyway by the foreign-key constraint) is dropped. -/
def cartJoinedRows (s : ShopState) (user : Nat) : List CartLine :=
  (cartRows s user).filterMap (fun r =>
    (findIngredient s r.ingredient).map
      (fun i => ⟨i.name, i.measurement_unit, r.amount⟩))

/-- Total amount of a (name, measurement unit) pair over a row list: the
`annotate(amount=Sum('amount'))` aggregate of views.py line 216. -/
def sumAmounts (p : String × String) (l : List CartLine) : Nat :=
  ((l.filter (fun c => keyOf c == p)).map (·.amount)).sum

/-- The GROUP BY of views.py lines 213-216: one output line per distinct
(name, measurement unit) key with the amounts summed.  The query has no
`order_by`, and `IngredientInRecipe.Meta.ordering = ('recipe',)` is not an
ordering by name (Django ignores `Meta.ordering` in aggregated `values()`
queries since 3.1 anyway), so the embedding emits the groups in first-
occurrence order of the keys, the deterministic stand-in for the
unspecified GROUP BY output order. -/
def groupLines : List CartLine → List CartLine
  | [] => []
  | c :: rest =>
    ⟨c.name, c.measurement_unit, c.amount + sumAmounts (keyOf c) rest⟩ ::
    groupLines (rest.filter (fun d => !(keyOf d == keyOf c)))
termination_by l => l.length
decreasing_by
  simp only [List.length_cons]
  exact Nat.lt_succ_of_le (List.length_filter_le _ _)

/-- First-occurrence subsequence of a key list: each key once, in the
order of its first appearance.  Spec-side description of the order in
which the GROUP BY of `generate_shopping_list` emits its groups. -/
def firstOccurKeys : List (String × String) → List (String × String)
  | [] => []
  | p :: rest => p :: firstOccurKeys (rest.filter (fun q => !(q == p)))
termination_by l => l.length
decreasing_by
  simp only [List.length_cons]
  exact Nat.lt_succ_of_le (List.length_filter_le _ _)

/-- Text of one shopping-list line (views.py lines 223-227). -/
def renderLine (c : CartLine) : String :=
  "- " ++ c.name ++ " (" ++ c.measurement_unit ++ ") - " ++ toString c.amount

/-- Footer appended at views.py line 230. -/
def footerLine (todayYear : String) : String :=
  "Foodgram (" ++ todayYear ++ ")"

/-- `RecipeViewSet.generate_shopping_list` (views.py lines 207-232).  When
the user's cart is empty the handler returns a bare HTTP 400 response and
no document; otherwise the rendered aggregated lines plus the footer.  The
function reads the state and returns only a result: the handler performs
no writes. -/
def generate_shopping_list (s : ShopState) (user : Nat) (todayYear : String) :
    Except Nat (List String) :=
  if (s.shoppingCart.filter (fun c => c.1 == user)).isEmpty then .error 400
  else .ok ((groupLines (cartJoinedRows s user)).map renderLine ++
    [footerLine todayYear])

/-- The (name, measurement unit) pair `p` occurs among the ingredient rows
of the user's cart (through the join to the ingredient table). -/
def pairOccurs (s : ShopState) (user : Nat) (p : String × String) : Prop :=
  ∃ r ∈ cartRows s user, ∃ i, findIngredient s r.ingredient = some i ∧
    (i.name, i.measurement_unit) = p

/-- Codepoint-wise lexicographic comparison of character lists, the order
Python uses to compare strings. -/
def lexLe : List Char → List Char → Bool
  | [], _ => true
  | _ :: _, [] => false
  | a :: as, b :: bs =>
    if a.toNat < b.toNat then true
    else if b.toNat < a.toNat then false
    else lexLe as bs

/-- Lexicographic comparison of strings. -/
def strLe (a b : String) : Bool := lexLe a.data b.data

/-- A line list is alphabetically ordered by ingredient name when every
line's name is lexicographically no greater than the next line's. -/
def alphabetical (l : List CartLine) : Prop :=
  l.Chain' (fun a b => strLe a.name b.name = true)

/-- `RecipeDetailSerializer.get_ingredients` (serializers.py lines
206-213): `recipe.ingredients.annotate(amount=Sum("ingredient_recipes__amount"))
.values("id", "name", "measurement_unit", "amount")`.
The related manager `recipe.ingredients` first filters the ingredient
table through the `IngredientInRecipe` join constrained to this recipe;
the `annotate` then resolves `ingredient_recipes` to the same join (same
table, same join column, same join field), and Django reuses the existing
alias — this is the documented "annotations are restricted by a preceding
filter" behaviour — so the SUM ranges over the rows of this recipe only.
The embedding renders that SQL: one output tuple per ingredient having a
row for this recipe, with the amounts of this recipe's rows for that
ingredient summed. -/
def get_ingredients (s : ShopState) (recipe : Nat) :
    List (Nat × String × String × Nat) :=
  (s.ingredients.filter (fun i =>
    s.ingredientRows.any (fun r => r.recipe == recipe && r.ingredient == i.id))).map
    (fun i => (i.id, i.name, i.measurement_unit,
      ((s.ingredientRows.filter
        (fun r => r.recipe == recipe && r.ingredient == i.id)).map
          (·.amount)).sum))

/-! ## Favorite / shopping-cart membership toggles (backend/api/views.py)

`RecipeViewSet.add_to` and `RecipeViewSet.delete_from` are shared by the
`favorite` and `shopping_cart` actions, parameterised only by which join
table (`Favorite` or `ShoppingCart`) they touch; the model below is that
shared operation on one membership table. -/

structure MemState where
  recipes : List Nat
  members : List (Nat × Nat)
deriving DecidableEq, Repr

/-- Outcome of a toggle request: HTTP 201, 204, a raised/returned
`ValidationError` (HTTP 400), or `get_object_or_404` (HTTP 404). -/
inductive ToggleOutcome where
  | created
  | noContent
  | badRequest (msg : String)
  | notFound
deriving DecidableEq, Repr

/-- Error message of the `UniqueTogetherValidator` on `FavoriteSerializer`
and `ShoppingCartSerializer` (serializers.py lines 374 and 388). -/
def alreadyAddedMsg : String := "Рецепт уже добавлен"

/-- Error message of views.py lines 158-160 (recipe id does not exist). -/
def recipeMissingMsg : String := "Рецепта не существует"

/-- Error message of views.py lines 179-181 (row to delete not present). -/
def notInCollectionMsg : String := "Указанного рецепта нет в списке"

/-- `RecipeViewSet.add_to` (views.py lines 151-172): 400 when the recipe
id does not exist; otherwise the serializer's `UniqueTogetherValidator`
rejects a (user, recipe) pair already present with "Рецепт уже добавлен"
(raised with HTTP 400), else the row is saved and 201 returned. -/
def add_to (s : MemState) (user pk : Nat) : ToggleOutcome × MemState :=
  if !(s.recipes.contains pk) then (.badRequest recipeMissingMsg, s)
  else if s.members.contains (user, pk) then (.badRequest alreadyAddedMsg, s)
  else (.created, { s with members := s.members ++ [(user, pk)] })

/-- `RecipeViewSet.delete_from` (views.py lines 174-183):
`get_object_or_404` gives 404 for a missing recipe id; a missing
membership row raises `ValidationError` (HTTP 400); otherwise the row is
deleted and 204 returned. -/
def delete_from (s : MemState) (user pk : Nat) : ToggleOutcome × MemState :=
  if !(s.recipes.contains pk) then (.notFound, s)
  else if !(s.members.contains (user, pk)) then
    (.badRequest notInCollectionMsg, s)
  else (.noContent,
    { s with members := s.members.filter (fun p => !(p == (user, pk))) })

/-! ## Subscriptions (backend/api/serializers.py, backend/api/views.py) -/

/-- Modelled from the spec: `api/constans.py` (defining
`SELF_SUBSCRIPTION_ERROR`) is not among the sources; spec §4.5 says
self-subscription is rejected. -/
def SELF_SUBSCRIPTION_ERROR : String := "Нельзя подписаться на самого себя"

/-- Modelled from the spec: `api/constans.py` (defining
`DUPLICATE_SUBSCRIPTION_ERROR`) is not among the sources; spec §7 calls
the duplicate toggle a conflict error. -/
def DUPLICATE_SUBSCRIPTION_ERROR : String := "Подписка уже существует"

/-- Error message of views.py line 78 (no such subscription). -/
def noSubscriptionMsg : String := "Подписки не существует"

/-- The `Subscription` table: `(user, author)` follow rows. -/
structure SubState where
  subscriptions : List (Nat × Nat)
deriving DecidableEq, Repr

/-- Creating a subscription through `SubscriptionInfoSerializer`
(serializers.py lines 393-418): the `UniqueTogetherValidator` of the Meta
runs first and rejects a duplicate pair; then `validate` rejects
`request.user == data["author"]`; only then is the row saved. -/
def subscribe (s : SubState) (user author : Nat) : Except String SubState :=
  if s.subscriptions.contains (user, author) then
    .error DUPLICATE_SUBSCRIPTION_ERROR
  else if user == author then .error SELF_SUBSCRIPTION_ERROR
  else .ok ⟨s.subscriptions ++ [(user, author)]⟩

/-- `UserViewSet.delete_subscription` (views.py lines 70-82): look the row
up, 400 with "Подписки не существует" when absent, delete it otherwise
(the unique constraint means at most one row matches). -/
def unsubscribe (s : SubState) (user author : Nat) : Except String SubState :=
  if !(s.subscriptions.contains (user, author)) then .error noSubscriptionMsg
  else .ok ⟨s.subscriptions.filter (fun p => !(p == (user, author)))⟩

/-- States of the `Subscription` table reachable from the empty table
through the subscribe / unsubscribe handlers. -/
inductive Reachable : SubState → Prop where
  | init : Reachable ⟨[]⟩
  | sub {s s' : SubState} {u a : Nat} :
      Reachable s → subscribe s u a = .ok s' → Reachable s'
  | unsub {s s' : SubState} {u a : Nat} :
      Reachable s → unsubscribe s u a = .ok s' → Reachable s'

/-! ## Recipe persistence (backend/api/serializers.py, create / update)

The `Recipe` rows (by id), the recipe-tag association table and the
`IngredientInRecipe` rows.  `create` performs three separate ORM writes —
`Recipe.objects.create`, `recipe.tags.set`, `bulk_create` — and `update`
four; neither method (nor anything else in the sources) opens a
`transaction.atomic` block, so in the embedding every step is a state
transition that is immediately visible (Django autocommit). -/

structure RecipeState where
  recipes : List Nat
  recipeTags : List (Nat × Nat)
  ingredientRows : List IngredientInRecipe
deriving DecidableEq, Repr

/-- `Recipe.objects.create(**validated_data)` (serializers.py line 325). -/
def insertRecipeRow (s : RecipeState) (rid : Nat) : RecipeState :=
  { s with recipes := s.recipes ++ [rid] }

/-- `recipe.tags.set(tags)` (serializers.py lines 326 and 335): replace
the recipe's tag associations with the given set. -/
def setRecipeTags (s : RecipeState) (rid : Nat) (tags : List Nat) :
    RecipeState :=
  { s with recipeTags :=
      s.recipeTags.filter (fun p => !(p.1 == rid)) ++
        tags.map (fun t => (rid, t)) }

/-- `instance.tags.clear()` (serializers.py line 334). -/
def clearRecipeTags (s : RecipeState) (rid : Nat) : RecipeState :=
  { s with recipeTags := s.recipeTags.filter (fun p => !(p.1 == rid)) }

/-- `IngredientInRecipe.objects.filter(recipe=instance).delete()`
(serializers.py line 336). -/
def deleteIngredientRows (s : RecipeState) (rid : Nat) : RecipeState :=
  { s with ingredientRows :=
      s.ingredientRows.filter (fun r => !(r.recipe == rid)) }

/-- `create_ingredients_recipes` (serializers.py lines 310-319):
`bulk_create` of one row per (ingredient id, amount) pair. -/
def bulkCreateIngredientRows (s : RecipeState) (rid : Nat)
    (ings : List (Nat × Nat)) : RecipeState :=
  { s with ingredientRows :=
      s.ingredientRows ++ ings.map (fun i => ⟨rid, i.1, i.2⟩) }

/-- The write sequence of `RecipeCreateUpdateSerializer.create`
(serializers.py lines 321-328), one entry per ORM write, in source
order. -/
def createSteps (rid : Nat) (tags : List Nat) (ings : List (Nat × Nat)) :
    List (RecipeState → RecipeState) :=
  [fun s => insertRecipeRow s rid,
   fun s => setRecipeTags s rid tags,
   fun s => bulkCreateIngredientRows s rid ings]

def runSteps (steps : List (RecipeState → RecipeState)) (s : RecipeState) :
    RecipeState :=
  steps.foldl (fun st f => f st) s

/-- A completed `create`. -/
def createRecipe (s : RecipeState) (rid : Nat) (tags : List Nat)
    (ings : List (Nat × Nat)) : RecipeState :=
  runSteps (createSteps rid tags ings) s

/-- The database state visible when `create` fails after its first `k`
writes: without a wrapping transaction each completed write has already
committed. -/
def createUpTo (k : Nat) (s : RecipeState) (rid : Nat) (tags : List Nat)
    (ings : List (Nat × Nat)) : RecipeState :=
  runSteps ((createSteps rid tags ings).take k) s

/-- `RecipeCreateUpdateSerializer.update` (serializers.py lines 330-341):
clear the tag associations, set the new ones, delete every
`IngredientInRecipe` row of the recipe, bulk-insert the new rows. -/
def updateRecipe (s : RecipeState) (rid : Nat) (tags : List Nat)
    (ings : List (Nat × Nat)) : RecipeState :=
  bulkCreateIngredientRows
    (deleteIngredientRows (setRecipeTags (clearRecipeTags s rid) rid tags)
      rid)
    rid ings

/-- The `IngredientInRecipe` rows persisted for one recipe. -/
def rowsFor (s : RecipeState) (rid : Nat) : List IngredientInRecipe :=
  s.ingredientRows.filter (fun r => r.recipe == rid)

/-- The tag associations persisted for one recipe. -/
def tagsFor (s : RecipeState) (rid : Nat) : List (Nat × Nat) :=
  s.recipeTags.filter (fun p => p.1 == rid)

/-! ## Example states -/

/-- The example of spec §8: the cart of user 1 holds recipes 10 and 20,
and ingredient "salt" (id 1) appears in recipe 10 with amount 5 and in
recipe 20 with amount 3. -/
def saltCartState : ShopState :=
  ⟨[⟨1, "salt", "g"⟩], [⟨10, 1, 5⟩, ⟨20, 1, 3⟩], [(1, 10), (1, 20)]⟩

/-- A state whose cart ingredient rows list ingredient "b" (id 1) before
ingredient "a" (id 2), both in recipe 10, which sits in user 1's cart. -/
def unsortedCartState : ShopState :=
  ⟨[⟨1, "b", "g"⟩, ⟨2, "a", "g"⟩], [⟨10, 1, 5⟩, ⟨10, 2, 3⟩], [(1, 10)]⟩


/-! ## Helper lemmas -/

theorem contains_eq_decide (l : List Nat) (a : Nat) :
    l.contains a = decide (a ∈ l) := by
  by_cases h : a ∈ l
  · simp [List.elem_iff.mpr h, h]
  · simp only [h, decide_False]
    by_contra hc
    simp only [Bool.not_eq_false] at hc
    exact h (List.elem_iff.mp hc)

theorem loop_eq_find (existing : List Nat) (l : List IngredientRef)
    (seen : List Nat) :
    validateIngredientsLoop existing l seen =
      (match (specIngredientChecks existing l seen).find? (fun c => !c.1) with
       | none => .ok ()
       | some c => .error c.2) := by
  induction l generalizing seen with
  | nil => simp [validateIngredientsLoop, specIngredientChecks]
  | cons ing rest ih =>
    simp only [validateIngredientsLoop, specIngredientChecks,
      contains_eq_decide]
    by_cases h1 : ing.amount < MIN_INGREDIENT_COUNT
    · rw [if_pos h1, List.find?_cons_of_pos _ (by simp [not_le.mpr h1])]
    · rw [if_neg h1, List.find?_cons_of_neg _ (by simp [not_lt.mp h1])]
      by_cases h2 : ing.id ∈ existing
      · rw [List.find?_cons_of_neg _ (by simp [h2])]
        simp only [h2, decide_True, Bool.not_true, Bool.false_eq_true,
          if_false]
        by_cases h3 : ing.id ∈ seen
        · rw [List.find?_cons_of_pos _ (by simp [h3])]
          simp [h3]
        · rw [List.find?_cons_of_neg _ (by simp [h3])]
          simp only [h3, decide_False, Bool.false_eq_true, if_false]
          exact ih (ing.id :: seen)
      · rw [List.find?_cons_of_pos _ (by simp [h2])]
        simp [h2]

theorem dedup_length_iff (l : List Nat) :
    l.length = l.dedup.length ↔ l.Nodup := by
  constructor
  · intro h
    exact List.dedup_eq_self.mp ((l.dedup_sublist).eq_of_length h.symm)
  · intro h; rw [h.dedup]

theorem loop_ok_iff (existing : List Nat) (l : List IngredientRef)
    (seen : List Nat) :
    validateIngredientsLoop existing l seen = .ok () ↔
      ((∀ ing ∈ l, MIN_INGREDIENT_COUNT ≤ ing.amount ∧ ing.id ∈ existing) ∧
       (l.map (·.id)).Nodup ∧ ∀ ing ∈ l, ing.id ∉ seen) := by
  induction l generalizing seen with
  | nil => simp [validateIngredientsLoop]
  | cons ing rest ih =>
    simp only [validateIngredientsLoop, contains_eq_decide]
    by_cases h1 : ing.amount < MIN_INGREDIENT_COUNT
    · rw [if_pos h1]
      simp only [reduceCtorEq, false_iff]
      rintro ⟨ha, -, -⟩
      exact absurd ((ha ing (List.mem_cons_self ing rest)).1) (not_le.mpr h1)
    · rw [if_neg h1]
      by_cases h2 : ing.id ∈ existing
      · simp only [h2, decide_True, Bool.not_true, Bool.false_eq_true,
          if_false]
        by_cases h3 : ing.id ∈ seen
        · simp only [h3, decide_True, if_true, reduceCtorEq, false_iff]
          rintro ⟨-, -, hc⟩
          exact hc ing (List.mem_cons_self ing rest) h3
        · simp only [h3, decide_False, Bool.false_eq_true, if_false]
          rw [ih]
          simp only [List.map_cons, List.nodup_cons, List.mem_cons,
            List.mem_map]
          constructor
          · rintro ⟨ha, hb, hc⟩
            refine ⟨?_, ⟨?_, hb⟩, ?_⟩
            · rintro x (rfl | hx)
              · exact ⟨not_lt.mp h1, h2⟩
              · exact ha x hx
            · rintro ⟨x, hx, hxid⟩
              exact (hc x hx) (Or.inl hxid)
            · rintro x (rfl | hx)
              · exact h3
              · intro hs
                exact (hc x hx) (Or.inr hs)
          · rintro ⟨ha, ⟨hb1, hb2⟩, hc⟩
            refine ⟨fun x hx => ha x (Or.inr hx), hb2, ?_⟩
            intro x hx hs
            rcases hs with heq | hs
            · exact hb1 ⟨x, hx, heq⟩
            · exact hc x (Or.inr hx) hs
      · simp only [h2, decide_False, Bool.not_false, if_true, reduceCtorEq,
          false_iff]
        rintro ⟨ha, -, -⟩
        exact h2 ((ha ing (List.mem_cons_self ing rest)).2)

theorem validate_eq (existing : List Nat) (p : RecipePayload) :
    validate existing p =
      (match specFirstFailure existing p with
       | none => .ok p
       | some m => .error m) := by
  unfold validate
  by_cases h1 : p.tags.isEmpty
  · simp [specFirstFailure, specChecks, h1]
  · by_cases h2 : p.tags.length = p.tags.dedup.length
    · by_cases h3 : p.ingredients.isEmpty
      · simp [specFirstFailure, specChecks, h1, h2, h3]
      · rw [if_neg h1, if_neg (by simp [h2]), if_neg h3, loop_eq_find]
        cases hf : (specIngredientChecks existing p.ingredients []).find?
            (fun c => !c.1) with
        | some c =>
          simp [specFirstFailure, specChecks, h1, h2, h3, List.find?_append,
            hf]
        | none =>
          by_cases h4 : p.cooking_time < MIN_COOKING_TIME
          · simp [specFirstFailure, specChecks, h1, h2, h3, h4,
              List.find?_append, hf, not_le.mpr h4]
          · by_cases h5 : p.image.isNone
            · simp [specFirstFailure, specChecks, h1, h2, h3,
                List.find?_append, hf, not_lt.mp h4, h5]
            · simp [specFirstFailure, specChecks, h1, h2, h3,
                List.find?_append, hf, not_lt.mp h4, h5]
    · simp [specFirstFailure, specChecks, h1, h2]

theorem validate_ok_iff (existing : List Nat) (p : RecipePayload) :
    validate existing p = .ok p ↔
      (p.tags ≠ [] ∧ p.tags.Nodup ∧ p.ingredients ≠ [] ∧
       (∀ ing ∈ p.ingredients,
         MIN_INGREDIENT_COUNT ≤ ing.amount ∧ ing.id ∈ existing) ∧
       (p.ingredients.map (·.id)).Nodup ∧
       MIN_COOKING_TIME ≤ p.cooking_time ∧ p.image ≠ none) := by
  unfold validate
  by_cases h1 : p.tags.isEmpty
  · rw [if_pos h1]
    simp only [reduceCtorEq, false_iff]
    rintro ⟨ht, -⟩
    exact ht (List.isEmpty_iff.mp h1)
  · rw [if_neg h1]
    by_cases h2 : p.tags.length = p.tags.dedup.length
    · rw [if_neg (by simp only [ne_eq, not_not]; exact h2)]
      by_cases h3 : p.ingredients.isEmpty
      · rw [if_pos h3]
        simp only [reduceCtorEq, false_iff]
        rintro ⟨-, -, hi, -⟩
        exact hi (List.isEmpty_iff.mp h3)
      · rw [if_neg h3]
        cases hl : validateIngredientsLoop existing p.ingredients [] with
        | error m =>
          simp only [reduceCtorEq, false_iff]
          rintro ⟨-, -, -, ha, hb, -⟩
          have hok : validateIngredientsLoop existing p.ingredients [] =
              .ok () :=
            (loop_ok_iff existing p.ingredients []).mpr ⟨ha, hb, by simp⟩
          rw [hl] at hok
          exact absurd hok (by simp)
        | ok u =>
          cases u
          have hloop := (loop_ok_iff existing p.ingredients []).mp hl
          by_cases h4 : p.cooking_time < MIN_COOKING_TIME
          · rw [if_pos h4]
            simp only [reduceCtorEq, false_iff]
            rintro ⟨-, -, -, -, -, hct, -⟩
            exact absurd hct (not_le.mpr h4)
          · rw [if_neg h4]
            by_cases h5 : p.image.isNone
            · rw [if_pos h5]
              simp only [reduceCtorEq, false_iff]
              rintro ⟨-, -, -, -, -, -, him⟩
              exact him (Option.isNone_iff_eq_none.mp h5)
            · rw [if_neg h5]
              constructor
              · intro _
                refine ⟨fun he => h1 (by simp [he]),
                  (dedup_length_iff p.tags).mp h2,
                  fun he => h3 (by simp [he]),
                  hloop.1, hloop.2.1, not_lt.mp h4,
                  fun hn => h5 (by simp [hn])⟩
              · intro _
                rfl
    · rw [if_pos h2]
      simp only [reduceCtorEq, false_iff]
      rintro ⟨-, hnd, -⟩
      exact h2 ((dedup_length_iff p.tags).mpr hnd)

theorem filter_key_filter (p : String × String) (q : CartLine → Bool)
    (l : List CartLine) (h : ∀ c ∈ l, keyOf c == p → q c) :
    (l.filter q).filter (fun c => keyOf c == p) =
      l.filter (fun c => keyOf c == p) := by
  induction l with
  | nil => rfl
  | cons c rest ih =>
    have ih' := ih (fun d hd => h d (List.mem_cons_of_mem _ hd))
    by_cases hk : (keyOf c == p) = true
    · have hq : q c = true := h c (List.mem_cons_self _ _) hk
      rw [List.filter_cons, if_pos hq, List.filter_cons, if_pos hk,
        List.filter_cons, if_pos hk, ih']
    · by_cases hq : q c = true
      · rw [List.filter_cons, if_pos hq, List.filter_cons, if_neg hk,
          List.filter_cons, if_neg hk, ih']
      · rw [List.filter_cons, if_neg hq, List.filter_cons, if_neg hk, ih']

theorem sumAmounts_filter (p : String × String) (q : CartLine → Bool)
    (l : List CartLine) (h : ∀ c ∈ l, keyOf c == p → q c) :
    sumAmounts p (l.filter q) = sumAmounts p l := by
  unfold sumAmounts
  rw [filter_key_filter p q l h]

theorem groupLines_key_occurs (l : List CartLine) :
    ∀ c ∈ groupLines l, l.any (fun d => keyOf d == keyOf c) := by
  induction l using groupLines.induct with
  | case1 => simp [groupLines]
  | case2 c rest ih =>
    intro d hd
    rw [groupLines] at hd
    rcases List.mem_cons.mp hd with rfl | hd
    · simp [keyOf]
    · have := ih d hd
      rw [List.any_eq_true] at this ⊢
      obtain ⟨x, hx, hxe⟩ := this
      exact ⟨x, List.mem_cons_of_mem _ (List.mem_of_mem_filter hx), hxe⟩

theorem groupLines_amount (l : List CartLine) :
    ∀ c ∈ groupLines l, c.amount = sumAmounts (keyOf c) l := by
  induction l using groupLines.induct with
  | case1 => simp [groupLines]
  | case2 c rest ih =>
    intro d hd
    rw [groupLines] at hd
    rcases List.mem_cons.mp hd with rfl | hd
    · show (⟨c.name, c.measurement_unit,
          c.amount + sumAmounts (keyOf c) rest⟩ : CartLine).amount =
        sumAmounts (keyOf c) (c :: rest)
      unfold sumAmounts
      rw [List.filter_cons, if_pos (by simp)]
      simp
    · have hne : ¬(keyOf d == keyOf c) = true := by
        have hocc := groupLines_key_occurs _ d hd
        rw [List.any_eq_true] at hocc
        obtain ⟨x, hx, hxe⟩ := hocc
        have hxq := List.of_mem_filter hx
        intro hdc
        rw [beq_iff_eq] at hxe hdc
        rw [hxe, hdc] at hxq
        simp at hxq
      rw [ih d hd, sumAmounts_filter _ _ _ ?side]
      · unfold sumAmounts
        rw [List.filter_cons, if_neg ?hne2]
        case hne2 =>
          intro hcd
          rw [beq_iff_eq] at hcd
          exact hne (by rw [hcd]; exact beq_self_eq_true _)
      · case side =>
        intro x hx hxk
        rw [beq_iff_eq] at hxk
        simp only [Bool.not_eq_true']
        rw [beq_eq_false_iff_ne]
        intro hxc
        exact hne (by rw [← hxk, hxc]; exact beq_self_eq_true _)

theorem groupLines_count (p : String × String) (l : List CartLine) :
    ((groupLines l).filter (fun c => keyOf c == p)).length =
      if l.any (fun c => keyOf c == p) then 1 else 0 := by
  induction l using groupLines.induct with
  | case1 => simp [groupLines]
  | case2 c rest ih =>
    rw [groupLines]
    by_cases hp : (keyOf c == p) = true
    · rw [List.filter_cons, if_pos (by simpa [keyOf] using hp)]
      have hpeq : keyOf c = p := beq_iff_eq.mp hp
      have htail : (List.filter (fun d => !(keyOf d == keyOf c)) rest).any
          (fun c => keyOf c == p) = false := by
        rw [List.any_eq_false]
        intro x hx hxp
        have hxq := List.of_mem_filter hx
        simp only [Bool.not_eq_true', beq_eq_false_iff_ne] at hxq
        rw [beq_iff_eq] at hxp
        exact hxq (by rw [hxp, ← hpeq])
      rw [List.length_cons, ih, htail, if_neg (by simp)]
      rw [if_pos (by rw [List.any_cons, hp, Bool.true_or])]
    · rw [List.filter_cons, if_neg (by simpa [keyOf] using hp)]
      have heq : (List.filter (fun d => !(keyOf d == keyOf c)) rest).any
          (fun c => keyOf c == p) = rest.any (fun c => keyOf c == p) := by
        rcases hany : rest.any (fun c => keyOf c == p) with _ | _
        · rw [List.any_eq_false] at hany ⊢
          intro x hx
          exact hany x (List.mem_of_mem_filter hx)
        · rw [List.any_eq_true] at hany ⊢
          obtain ⟨x, hx, hxp⟩ := hany
          refine ⟨x, List.mem_filter.mpr ⟨hx, ?_⟩, hxp⟩
          rw [beq_iff_eq] at hxp
          simp only [Bool.not_eq_true', beq_eq_false_iff_ne, hxp]
          intro hpc
          exact hp (by rw [hpc]; exact beq_self_eq_true _)
      simp only [Bool.not_eq_true] at hp
      rw [ih, heq, List.any_cons, hp, Bool.false_or]

theorem groupLines_keys (l : List CartLine) :
    (groupLines l).map keyOf = firstOccurKeys (l.map keyOf) := by
  induction l using groupLines.induct with
  | case1 => simp [groupLines, firstOccurKeys]
  | case2 c rest ih =>
    rw [groupLines, List.map_cons, List.map_cons, firstOccurKeys]
    congr 1
    rw [ih, List.filter_map]
    rfl

theorem generate_ok_of_nonempty (s : ShopState) (user : Nat) (y : String)
    (hne : ∃ p ∈ s.shoppingCart, p.1 = user) :
    generate_shopping_list s user y =
      .ok ((groupLines (cartJoinedRows s user)).map renderLine ++
        [footerLine y]) := by
  unfold generate_shopping_list
  rw [if_neg ?ne]
  case ne =>
    obtain ⟨q, hq, hq1⟩ := hne
    rw [List.isEmpty_iff]
    intro hemp
    have hmem : q ∈ s.shoppingCart.filter (fun c => c.1 == user) :=
      List.mem_filter.mpr ⟨hq, by rw [hq1]; exact beq_self_eq_true _⟩
    rw [hemp] at hmem
    exact absurd hmem (List.not_mem_nil _)

/-! ## Claim theorems -/

/-- C1: the recipe validator accepts a candidate payload exactly when the
tag list is non-empty and free of duplicate tag references, the ingredient
list is non-empty, every ingredient amount reaches the configured minimum
and references an existing ingredient, no ingredient id repeats, the
cooking time reaches the configured minimum, and an image is present; it
is a pure check (on success it returns the payload unchanged and performs
no writes), and otherwise it produces the message of the first failed rule
only (short-circuit). -/
theorem C1_recipe_validator (existing : List Nat) (p : RecipePayload) :
    (validate existing p = .ok p ↔
      (p.tags ≠ [] ∧ p.tags.Nodup ∧ p.ingredients ≠ [] ∧
       (∀ ing ∈ p.ingredients,
         MIN_INGREDIENT_COUNT ≤ ing.amount ∧ ing.id ∈ existing) ∧
       (p.ingredients.map (·.id)).Nodup ∧
       MIN_COOKING_TIME ≤ p.cooking_time ∧ p.image ≠ none))
  ∧ validate existing p =
      (match specFirstFailure existing p with
       | none => .ok p
       | some m => .error m) :=
  ⟨validate_ok_iff existing p, validate_eq existing p⟩

/-- C10: the reserved-username check is case-insensitive: it rejects
exactly the strings whose lowercase form is "me", among them "ME", "Me"
and "mE", and accepts everything else. -/
theorem C10_reserved_username_case_insensitive :
    (∀ s : String,
      validate_username_not_me s = .error reservedUsernameMsg ↔
        strLower s = "me")
  ∧ validate_username_not_me "ME" = .error reservedUsernameMsg
  ∧ validate_username_not_me "Me" = .error reservedUsernameMsg
  ∧ validate_username_not_me "mE" = .error reservedUsernameMsg
  ∧ validate_username_not_me "me" = .error reservedUsernameMsg
  ∧ validate_username_not_me "men" = .ok () := by
  refine ⟨fun s => ?_, rfl, rfl, rfl, rfl, rfl⟩
  unfold validate_username_not_me
  by_cases h : strLower s = "me"
  · simp [h]
  · simp [h]

/-- C8: for a user whose shopping cart holds no row, the export handler
produces no document and signals HTTP 400; the handler only reads the
state (the embedding returns a result and no new state). -/
theorem C8_empty_cart_rejected (s : ShopState) (user : Nat) (y : String)
    (h : ∀ p ∈ s.shoppingCart, p.1 ≠ user) :
    generate_shopping_list s user y = .error 400 := by
  unfold generate_shopping_list
  rw [if_pos ?pos]
  case pos =>
    rw [List.isEmpty_iff, List.filter_eq_nil_iff]
    intro p hp
    simpa using h p hp

/-- Witness for C8: the concrete user 1, whose cart is empty in a state
where only user 2 has a cart row, receives the HTTP 400 rejection. -/
theorem C8_empty_cart_rejected_witness :
    (∀ p ∈ (⟨[], [], [(2, 5)]⟩ : ShopState).shoppingCart, p.1 ≠ 1) ∧
    generate_shopping_list ⟨[], [], [(2, 5)]⟩ 1 "2024" = .error 400 :=
  ⟨by decide, C8_empty_cart_rejected ⟨[], [], [(2, 5)]⟩ 1 "2024" (by decide)⟩

/-- C3 (code bug): neither `create` nor `update` opens a transaction, so
a failure between the tag write and the ingredient `bulk_create` leaves a
partial write visible.  From the empty database, creating recipe 1 with
tags [1] and ingredients [(1, 2)] and failing after the second write
leaves a state that differs from the initial state and from the
fully-created state: the recipe row and the tag association are persisted
while no ingredient row is. -/
theorem C3_create_partial_write_visible :
    createUpTo 2 ⟨[], [], []⟩ 1 [1] [(1, 2)] ≠ (⟨[], [], []⟩ : RecipeState)
  ∧ createUpTo 2 ⟨[], [], []⟩ 1 [1] [(1, 2)] ≠
      createRecipe ⟨[], [], []⟩ 1 [1] [(1, 2)]
  ∧ (createUpTo 2 ⟨[], [], []⟩ 1 [1] [(1, 2)]).recipes = [1]
  ∧ (createUpTo 2 ⟨[], [], []⟩ 1 [1] [(1, 2)]).recipeTags = [(1, 1)]
  ∧ (createUpTo 2 ⟨[], [], []⟩ 1 [1] [(1, 2)]).ingredientRows = [] := by
  decide

/-- C2: for a user with a non-empty shopping cart the generated list has
exactly one line per distinct (ingredient name, measurement unit) pair
occurring among the cart's ingredient rows, and each line's amount is the
sum of the IngredientInRecipe amounts of that pair across every recipe in
the cart. -/
theorem C2_shopping_list_aggregation (s : ShopState) (user : Nat)
    (y : String) (hne : ∃ p ∈ s.shoppingCart, p.1 = user) :
    generate_shopping_list s user y =
      .ok ((groupLines (cartJoinedRows s user)).map renderLine ++
        [footerLine y])
  ∧ (∀ p : String × String,
      ((groupLines (cartJoinedRows s user)).filter
          (fun c => keyOf c == p)).length =
        if (cartJoinedRows s user).any (fun c => keyOf c == p) then 1
        else 0)
  ∧ (∀ p : String × String,
      (cartJoinedRows s user).any (fun c => keyOf c == p) = true ↔
        pairOccurs s user p)
  ∧ (∀ c ∈ groupLines (cartJoinedRows s user),
      c.amount = sumAmounts (keyOf c) (cartJoinedRows s user)) := by
  refine ⟨generate_ok_of_nonempty s user y hne,
    fun p => groupLines_count p _, fun p => ?_, groupLines_amount _⟩
  rw [List.any_eq_true]
  unfold pairOccurs
  constructor
  · rintro ⟨c, hc, hcp⟩
    rw [cartJoinedRows, List.mem_filterMap] at hc
    obtain ⟨r, hr, hf⟩ := hc
    cases hfi : findIngredient s r.ingredient with
    | none => rw [hfi] at hf; cases hf
    | some i =>
      rw [hfi] at hf
      refine ⟨r, hr, i, hfi, ?_⟩
      rw [beq_iff_eq] at hcp
      rw [← hcp]
      cases hf
      rfl
  · rintro ⟨r, hr, i, hfi, hip⟩
    refine ⟨⟨i.name, i.measurement_unit, r.amount⟩, ?_, ?_⟩
    · rw [cartJoinedRows, List.mem_filterMap]
      exact ⟨r, hr, by rw [hfi]; rfl⟩
    · rw [beq_iff_eq]
      exact hip

/-- Witness for C2: the salt example of spec §8 — user 1's cart holds
recipes 10 and 20 with salt amounts 5 and 3; the non-emptiness hypothesis
holds, the theorem applies, and the aggregated lines are the single salt
line with amount 8. -/
theorem C2_shopping_list_aggregation_witness :
    (∃ p ∈ saltCartState.shoppingCart, p.1 = 1)
  ∧ generate_shopping_list saltCartState 1 "2024" =
      .ok ((groupLines (cartJoinedRows saltCartState 1)).map renderLine ++
        [footerLine "2024"])
  ∧ groupLines (cartJoinedRows saltCartState 1) = [⟨"salt", "g", 8⟩] :=
  ⟨⟨(1, 10), by decide, rfl⟩,
   (C2_shopping_list_aggregation saltCartState 1 "2024"
     ⟨(1, 10), by decide, rfl⟩).1,
   by simp [saltCartState, cartJoinedRows, cartRows, findIngredient,
     groupLines, sumAmounts, keyOf]⟩

/-- C7 counterexample: in the state whose cart rows list ingredient "b"
before "a", the generated list's lines are not alphabetically ordered by
ingredient name, refuting "for every cart, every line's ingredient name is
lexicographically no greater than the next line's". -/
theorem C7_counterexample_not_alphabetical :
    ¬ alphabetical (groupLines (cartJoinedRows unsortedCartState 1)) := by
  have hev : groupLines (cartJoinedRows unsortedCartState 1) =
      [⟨"b", "g", 5⟩, ⟨"a", "g", 3⟩] := by
    simp [unsortedCartState, cartJoinedRows, cartRows, findIngredient,
      groupLines, sumAmounts, keyOf]
  rw [hev]
  unfold alphabetical
  intro h
  have h1 := (List.chain'_cons.mp h).1
  have h2 : strLe "b" "a" = false := rfl
  rw [h2] at h1
  cases h1

/-- C7 (amended): the aggregation query applies no ordering by ingredient
name (and the model default ordering is by recipe id, which Django
ignores for grouped queries); the generated list's lines appear in the
first-occurrence order of their (name, measurement unit) pairs among the
cart's ingredient rows, which need not be alphabetical. -/
theorem C7_first_occurrence_order (s : ShopState) (user : Nat) (y : String)
    (hne : ∃ p ∈ s.shoppingCart, p.1 = user) :
    generate_shopping_list s user y =
      .ok ((groupLines (cartJoinedRows s user)).map renderLine ++
        [footerLine y])
  ∧ (groupLines (cartJoinedRows s user)).map keyOf =
      firstOccurKeys ((cartJoinedRows s user).map keyOf) :=
  ⟨generate_ok_of_nonempty s user y hne, groupLines_keys _⟩

/-- Witness for C7 (amended): the unsorted example state satisfies the
non-emptiness hypothesis, the amended theorem applies, and the key order
is the first-occurrence order ("b" before "a"). -/
theorem C7_first_occurrence_order_witness :
    (∃ p ∈ unsortedCartState.shoppingCart, p.1 = 1)
  ∧ (groupLines (cartJoinedRows unsortedCartState 1)).map keyOf =
      firstOccurKeys ((cartJoinedRows unsortedCartState 1).map keyOf)
  ∧ (cartJoinedRows unsortedCartState 1).map keyOf =
      [("b", "g"), ("a", "g")] :=
  ⟨⟨(1, 10), by decide, rfl⟩,
   (C7_first_occurrence_order unsortedCartState 1 "2024"
     ⟨(1, 10), by decide, rfl⟩).2,
   by simp [unsortedCartState, cartJoinedRows, cartRows, findIngredient,
     keyOf]⟩



theorem pair_contains_eq_decide (l : List (Nat × Nat)) (a : Nat × Nat) :
    l.contains a = decide (a ∈ l) := by
  by_cases h : a ∈ l
  · simp [List.elem_iff.mpr h, h]
  · simp only [h, decide_False]
    by_contra hc
    simp only [Bool.not_eq_false] at hc
    exact h (List.elem_iff.mp hc)

theorem length_le_one_of_nodup_const {α β : Type} {l : List α} {f : α → β}
    {k : β} (hnd : (l.map f).Nodup) (hall : ∀ x ∈ l, f x = k) :
    l.length ≤ 1 := by
  match l with
  | [] => simp
  | [a] => simp
  | a :: b :: t =>
    exfalso
    rw [List.map_cons, List.map_cons, List.nodup_cons] at hnd
    have hab : f a = f b := by
      rw [hall a (List.mem_cons_self _ _),
        hall b (List.mem_cons_of_mem _ (List.mem_cons_self _ _))]
    exact hnd.1 (by rw [hab]; exact List.mem_cons_self _ _)

theorem eq_singleton_of_mem_of_length_le_one {α : Type} {l : List α} {a : α}
    (hlen : l.length ≤ 1) (ha : a ∈ l) : l = [a] := by
  match l with
  | [] => cases ha
  | [x] =>
    rw [List.mem_singleton] at ha
    rw [ha]
  | x :: y :: t =>
    exfalso
    simp only [List.length_cons] at hlen
    omega

/-- C9: under the table's (ingredient, recipe) uniqueness constraint,
every entry of the recipe detail ingredient listing carries exactly the
amount stored in that recipe's own IngredientInRecipe row — amounts of the
same ingredient in other recipes never enter the sum. -/
theorem C9_detail_amounts_from_own_row (s : ShopState) (rid : Nat)
    (hunique :
      (s.ingredientRows.map (fun r => (r.ingredient, r.recipe))).Nodup) :
    ∀ e ∈ get_ingredients s rid, ∃ row ∈ s.ingredientRows,
      row.recipe = rid ∧ row.ingredient = e.1 ∧ e.2.2.2 = row.amount := by
  intro e he
  unfold get_ingredients at he
  rw [List.mem_map] at he
  obtain ⟨i, hi, hei⟩ := he
  subst hei
  obtain ⟨himem, hany⟩ := List.mem_filter.mp hi
  rw [List.any_eq_true] at hany
  obtain ⟨r0, hr0, hr0p⟩ := hany
  have hr0f : r0 ∈ s.ingredientRows.filter
      (fun r => r.recipe == rid && r.ingredient == i.id) :=
    List.mem_filter.mpr ⟨hr0, hr0p⟩
  have hkeys : ∀ r ∈ s.ingredientRows.filter
      (fun r => r.recipe == rid && r.ingredient == i.id),
      (fun r : IngredientInRecipe => (r.ingredient, r.recipe)) r =
        (i.id, rid) := by
    intro r hr
    have hp := (List.mem_filter.mp hr).2
    simp only [Bool.and_eq_true, beq_iff_eq] at hp
    simp [hp.1, hp.2]
  have hnd : ((s.ingredientRows.filter
      (fun r => r.recipe == rid && r.ingredient == i.id)).map
        (fun r => (r.ingredient, r.recipe))).Nodup :=
    hunique.sublist ((List.filter_sublist _).map _)
  have hlen := length_le_one_of_nodup_const hnd hkeys
  have hfeq := eq_singleton_of_mem_of_length_le_one hlen hr0f
  simp only [Bool.and_eq_true, beq_iff_eq] at hr0p
  refine ⟨r0, hr0, hr0p.1, hr0p.2, ?_⟩
  show ((s.ingredientRows.filter
    (fun r => r.recipe == rid && r.ingredient == i.id)).map
      (·.amount)).sum = r0.amount
  rw [hfeq]
  simp

/-- Witness for C9: salt (id 1) appears in recipe 10 with amount 5 and in
recipe 20 with amount 3; the uniqueness hypothesis holds, the theorem
applies to recipe 10, and the evaluated listing shows amount 5 (its own
row), not 8. -/
theorem C9_detail_amounts_from_own_row_witness :
    (saltCartState.ingredientRows.map
      (fun r => (r.ingredient, r.recipe))).Nodup
  ∧ (∀ e ∈ get_ingredients saltCartState 10, ∃ row ∈
      saltCartState.ingredientRows,
      row.recipe = 10 ∧ row.ingredient = e.1 ∧ e.2.2.2 = row.amount)
  ∧ get_ingredients saltCartState 10 = [(1, "salt", "g", 5)] :=
  ⟨by decide,
   C9_detail_amounts_from_own_row saltCartState 10 (by decide),
   by decide⟩

/-- C4: for every (user, recipe) pair the favorite / shopping-cart toggle
is a two-state membership machine: adding an absent pair inserts the row
(201), adding a present pair is rejected with the "already added" conflict
message and leaves the state unchanged, removing a present pair deletes
the row (204), and removing an absent pair is rejected with the
"row not present" error (translated to HTTP 400 for these nested actions)
and leaves the state unchanged. -/
theorem C4_toggle_state_machine (s : MemState) (user pk : Nat)
    (hrec : pk ∈ s.recipes) :
    ((user, pk) ∈ s.members →
      add_to s user pk = (.badRequest alreadyAddedMsg, s) ∧
      delete_from s user pk =
        (.noContent,
          { s with members := s.members.filter (fun p => !(p == (user, pk))) }))
  ∧ ((user, pk) ∉ s.members →
      add_to s user pk =
        (.created, { s with members := s.members ++ [(user, pk)] }) ∧
      delete_from s user pk = (.badRequest notInCollectionMsg, s)) := by
  have hrc : s.recipes.contains pk = true := List.elem_iff.mpr hrec
  constructor
  · intro hm
    have hmc : s.members.contains (user, pk) = true := List.elem_iff.mpr hm
    unfold add_to delete_from
    rw [hrc, hmc]
    exact ⟨rfl, rfl⟩
  · intro hm
    have hmc : s.members.contains (user, pk) = false := by
      rw [pair_contains_eq_decide]
      simpa using hm
    unfold add_to delete_from
    rw [hrc, hmc]
    exact ⟨rfl, rfl⟩

/-- Witness for C4: recipe 7 exists; for user 1 the pair (1, 7) is present
in a one-row table, so the second add is rejected unchanged; in the empty
table the pair is absent, so the remove is rejected unchanged. -/
theorem C4_toggle_state_machine_witness :
    (7 ∈ ([7] : List Nat))
  ∧ (add_to ⟨[7], [(1, 7)]⟩ 1 7 =
      (.badRequest alreadyAddedMsg, ⟨[7], [(1, 7)]⟩))
  ∧ (delete_from ⟨[7], []⟩ 1 7 =
      (.badRequest notInCollectionMsg, ⟨[7], []⟩)) :=
  ⟨by decide,
   by
    have h := (C4_toggle_state_machine ⟨[7], [(1, 7)]⟩ 1 7 (by decide)).1
      (by decide)
    exact h.1,
   by
    have h := (C4_toggle_state_machine ⟨[7], []⟩ 1 7 (by decide)).2
      (by decide)
    exact h.2⟩

theorem rowsFor_updateRecipe (s : RecipeState) (rid : Nat)
    (tags : List Nat) (ings : List (Nat × Nat)) :
    rowsFor (updateRecipe s rid tags ings) rid =
      ings.map (fun i => ⟨rid, i.1, i.2⟩) := by
  unfold rowsFor updateRecipe bulkCreateIngredientRows deleteIngredientRows
    setRecipeTags clearRecipeTags
  rw [List.filter_append, List.filter_eq_nil_iff.mpr ?h1, List.nil_append,
    List.filter_eq_self.mpr ?h2]
  case h1 =>
    intro r hr
    have hp := (List.mem_filter.mp hr).2
    simp only [Bool.not_eq_true'] at hp
    simp [hp]
  case h2 =>
    intro r hr
    obtain ⟨i, _, rfl⟩ := List.mem_map.mp hr
    simp

theorem tagsFor_updateRecipe (s : RecipeState) (rid : Nat)
    (tags : List Nat) (ings : List (Nat × Nat)) :
    tagsFor (updateRecipe s rid tags ings) rid =
      tags.map (fun t => (rid, t)) := by
  unfold tagsFor updateRecipe bulkCreateIngredientRows deleteIngredientRows
    setRecipeTags clearRecipeTags
  rw [List.filter_append, List.filter_eq_nil_iff.mpr ?h1, List.nil_append,
    List.filter_eq_self.mpr ?h2]
  case h1 =>
    intro p hp
    have hq := (List.mem_filter.mp hp).2
    simp only [Bool.not_eq_true'] at hq
    simp [hq]
  case h2 =>
    intro p hp
    obtain ⟨t, _, rfl⟩ := List.mem_map.mp hp
    simp

theorem rowsFor_updateRecipe_other (s : RecipeState) (rid rid2 : Nat)
    (tags : List Nat) (ings : List (Nat × Nat)) (hne : rid2 ≠ rid) :
    rowsFor (updateRecipe s rid tags ings) rid2 = rowsFor s rid2 := by
  unfold rowsFor updateRecipe bulkCreateIngredientRows deleteIngredientRows
    setRecipeTags clearRecipeTags
  have hmap : (ings.map (fun i =>
      (⟨rid, i.1, i.2⟩ : IngredientInRecipe))).filter
        (fun r => r.recipe == rid2) = [] := by
    rw [List.filter_eq_nil_iff]
    intro r hr
    obtain ⟨i, _, rfl⟩ := List.mem_map.mp hr
    simp only [beq_eq_false_iff_ne, Bool.not_eq_true]
    exact Ne.symm hne
  have hfil : (s.ingredientRows.filter (fun r => !(r.recipe == rid))).filter
      (fun r => r.recipe == rid2) =
      s.ingredientRows.filter (fun r => r.recipe == rid2) := by
    rw [List.filter_comm]
    apply List.filter_eq_self.mpr
    intro r hr
    have hq := (List.mem_filter.mp hr).2
    rw [beq_iff_eq] at hq
    simp [hq, beq_eq_false_iff_ne, hne]
  rw [List.filter_append, hmap, hfil, List.append_nil]

/-- C5: a recipe update replaces the recipe's ingredient rows and tag
associations wholesale: after updating with ingredient set A and then set
B, exactly the rows of B are persisted for the recipe (every persisted row
of the recipe comes from B, so nothing of A \ B remains), the tag
associations equal the last-written tag set, and rows of other recipes
are untouched. -/
theorem C5_update_full_replace (s : RecipeState) (rid : Nat)
    (tagsA tagsB : List Nat) (A B : List (Nat × Nat)) :
    (rowsFor (updateRecipe (updateRecipe s rid tagsA A) rid tagsB B) rid =
      B.map (fun i => ⟨rid, i.1, i.2⟩))
  ∧ (tagsFor (updateRecipe (updateRecipe s rid tagsA A) rid tagsB B) rid =
      tagsB.map (fun t => (rid, t)))
  ∧ (∀ r ∈ (updateRecipe (updateRecipe s rid tagsA A) rid tagsB
        B).ingredientRows,
      r.recipe = rid → r ∈ B.map (fun i => ⟨rid, i.1, i.2⟩))
  ∧ (∀ rid2, rid2 ≠ rid →
      rowsFor (updateRecipe (updateRecipe s rid tagsA A) rid tagsB B)
        rid2 = rowsFor s rid2) := by
  refine ⟨rowsFor_updateRecipe _ _ _ _, tagsFor_updateRecipe _ _ _ _,
    ?_, ?_⟩
  · intro r hr hrid
    have hmem : r ∈ rowsFor (updateRecipe (updateRecipe s rid tagsA A) rid
        tagsB B) rid := by
      unfold rowsFor
      exact List.mem_filter.mpr ⟨hr, by rw [hrid]; exact beq_self_eq_true _⟩
    rw [rowsFor_updateRecipe] at hmem
    exact hmem
  · intro rid2 h2
    rw [rowsFor_updateRecipe_other _ _ _ _ _ h2,
      rowsFor_updateRecipe_other _ _ _ _ _ h2]

/-- C6: a self-subscription attempt is always rejected (either as a
duplicate or by the self-subscription check), and consequently no table
reachable through the subscribe / unsubscribe handlers contains a row
whose follower equals its author. -/
theorem C6_no_self_subscription :
    (∀ (s : SubState) (u : Nat), ∃ m, subscribe s u u = .error m)
  ∧ (∀ s, Reachable s → ∀ p ∈ s.subscriptions, p.1 ≠ p.2) := by
  constructor
  · intro s u
    unfold subscribe
    by_cases h : s.subscriptions.contains (u, u) = true
    · exact ⟨DUPLICATE_SUBSCRIPTION_ERROR, by rw [if_pos h]⟩
    · exact ⟨SELF_SUBSCRIPTION_ERROR,
        by rw [if_neg h, if_pos (beq_self_eq_true u)]⟩
  · intro s hs
    induction hs with
    | init =>
      intro p hp
      cases hp
    | sub hr hok ih =>
      rename_i s0 s1 u a
      intro p hp
      unfold subscribe at hok
      by_cases h1 : s0.subscriptions.contains (u, a) = true
      · rw [if_pos h1] at hok
        cases hok
      · rw [if_neg h1] at hok
        by_cases h2 : (u == a) = true
        · rw [if_pos h2] at hok
          cases hok
        · rw [if_neg h2] at hok
          cases hok
          rcases List.mem_append.mp hp with hp | hp
          · exact ih p hp
          · rw [List.mem_singleton] at hp
            subst hp
            simpa using h2
    | unsub hr hok ih =>
      rename_i s0 s1 u a
      intro p hp
      unfold unsubscribe at hok
      by_cases h1 : s0.subscriptions.contains (u, a) = true
      · rw [h1] at hok
        simp only [Bool.not_true, Bool.false_eq_true, if_false] at hok
        cases hok
        exact ih p (List.mem_of_mem_filter hp)
      · simp only [Bool.not_eq_true] at h1
        rw [h1] at hok
        simp only [Bool.not_false, if_true] at hok
        cases hok

/-- Witness for C6: the table holding only the row (1, 2) is reachable
(one successful subscribe from the empty table); a self-subscribe of user
3 in it is rejected, and no row of it has follower = author. -/
theorem C6_no_self_subscription_witness :
    (∃ m, subscribe (⟨[(1, 2)]⟩ : SubState) 3 3 = .error m)
  ∧ (∀ p ∈ (⟨[(1, 2)]⟩ : SubState).subscriptions, p.1 ≠ p.2) :=
  ⟨C6_no_self_subscription.1 ⟨[(1, 2)]⟩ 3,
   C6_no_self_subscription.2 ⟨[(1, 2)]⟩
     (Reachable.sub (s := ⟨[]⟩) (u := 1) (a := 2) Reachable.init rfl)⟩

end Foodgram
